import Mathlib

/-!
A verification development for the subtitle-sink program
(`subtitle-sink.py`): a watcher that relocates subtitle files arriving in a
source directory into the matching episode folder of a TV library.

The embedding is shallow: the filesystem is an explicit state (`FS`), the
`guessit` metadata extractor is an oracle parameter (`Guess`), Python
exceptions are `Except PyErr`, and `logging` calls are collected in a
`List Log`.  Each Python function of the source becomes a Lean function of
the same name, translated clause by clause.
-/

/-- Log levels used by the program (`logging.info` / `warning` / `error`). -/
inductive Level
  | info
  | warning
  | error
deriving DecidableEq

/-- One emitted log line: a level and the formatted message. -/
structure Log where
  level : Level
  msg : String
deriving DecidableEq

/-- Python exceptions that the program can raise. -/
inductive PyErr
  | keyError
  | osError
  | fileNotFound
  | copyError
  | noOptionError
  | exc (msg : String)
deriving DecidableEq

/- ### Character/string utilities (kernel-reducible replacements for the
Python string operations the program uses). -/

/-- True iff the list `a` leads the list `b` (Python-style prefix test). -/
def charsLead : List Char → List Char → Bool
  | [], _ => true
  | _ :: _, [] => false
  | a :: as, b :: bs => a == b && charsLead as bs

/-- Python's substring test `needle in hay`, on character lists. -/
def charsContains (needle : List Char) : List Char → Bool
  | [] => needle.isEmpty
  | h :: t => charsLead needle (h :: t) || charsContains needle t

/-- Python `needle in hay` on strings (substring containment). -/
def strContains (hay needle : String) : Bool :=
  charsContains needle.data hay.data

/-- Python `str.lower()` restricted to ASCII-style per-character lowering. -/
def toLowerS (s : String) : String :=
  String.mk (s.data.map Char.toLower)

/-- Python `str.endswith(suffix)`. -/
def endsWithS (s suffix : String) : Bool :=
  charsLead suffix.data.reverse s.data.reverse

/-- The character `{` (written via its code point). -/
def lbrace : Char := Char.ofNat 123

/-- The character `}` (written via its code point). -/
def rbrace : Char := Char.ofNat 125

/-- Substitute every occurrence of the placeholder `\x7bnr\x7d` by `nr`:
the model of Python's `str.format(nr=...)` for templates that use the plain
placeholder (the program's default template `"Season \x7bnr\x7d"` does). -/
def substNr (nr : List Char) : List Char → List Char
  | [] => []
  | [c] => [c]
  | [c, d] => [c, d]
  | [c, d, e] => [c, d, e]
  | c :: d :: e :: f :: tail =>
    if c = lbrace ∧ d = 'n' ∧ e = 'r' ∧ f = rbrace then nr ++ substNr nr tail
    else c :: substNr nr (d :: e :: f :: tail)

/-- The source's `cfg.SeasonFormat.format(nr=season)`. -/
def formatSeason (fmt : String) (nr : Nat) : String :=
  String.mk (substNr (Nat.repr nr).data fmt.data)

/-- Python `"...".split(",")` helper on characters. -/
def splitCommaAux : List Char → List Char → List (List Char)
  | [], acc => [acc.reverse]
  | c :: rest, acc =>
    if c = ',' then acc.reverse :: splitCommaAux rest []
    else splitCommaAux rest (c :: acc)

/-- Python `s.split(",")`. -/
def splitComma (s : String) : List String :=
  (splitCommaAux s.data []).map String.mk

/-- Split the part of a basename after its leading dots into root and
extension at the last dot, as `posixpath.splitext` does. -/
def splitExtRest (rest : List Char) : List Char × List Char :=
  let rev := rest.reverse
  let afterDot := rev.takeWhile (fun c => c != '.')
  if afterDot.length = rev.length then (rest, [])
  else ((rev.drop (afterDot.length + 1)).reverse, '.' :: afterDot.reverse)

/-- Python `os.path.splitext`: split a path into root and extension; the
extension starts at the last dot of the basename, and the basename's
leading dots never start an extension. -/
def splitext (p : String) : String × String :=
  let rev := p.data.reverse
  let baseRev := rev.takeWhile (fun c => c != '/')
  let dirPart := (rev.drop baseRev.length).reverse
  let base := baseRev.reverse
  let lead := base.takeWhile (fun c => c == '.')
  let rest := base.dropWhile (fun c => c == '.')
  let (root, ext) := splitExtRest rest
  (String.mk (dirPart ++ lead ++ root), String.mk ext)

/-- Python `os.path.join(a, b)` for two components. -/
def joinPath (a b : String) : String :=
  if charsLead ['/'] b.data then b
  else if a == "" then b
  else if endsWithS a "/" then a ++ b
  else a ++ "/" ++ b

/-- Python `", ".join(l)`. -/
def joinCommaSep : List String → String
  | [] => ""
  | [x] => x
  | x :: y :: rest => x ++ ", " ++ joinCommaSep (y :: rest)

/- ### Association-list helpers for file contents. -/

/-- Look up a key in an association list (first binding wins). -/
def lookupA : List (String × String) → String → Option String
  | [], _ => none
  | (k, v) :: rest, key => if k == key then some v else lookupA rest key

/-- Overwrite (or insert) a binding in an association list. -/
def setA : List (String × String) → String → String → List (String × String)
  | [], key, val => [(key, val)]
  | (k, v) :: rest, key, val =>
    if k == key then (key, val) :: rest else (k, v) :: setA rest key val

/-- Remove every binding of a key from an association list. -/
def removeA : List (String × String) → String → List (String × String)
  | [], _ => []
  | (k, v) :: rest, key =>
    if k == key then removeA rest key else (k, v) :: removeA rest key

/- ### Filesystem model. -/

/-- A filesystem state: regular files with contents, the set of directory
paths, a listing oracle for `os.listdir` (which may raise `OSError`), and
an injection point `copyErr` making `shutil.copy` fail for chosen
source/destination pairs (e.g. an unwritable destination). -/
structure FS where
  files : List (String × String)
  dirs : List String
  listing : String → Except PyErr (List String)
  copyErr : String → String → Bool

/-- Python `os.path.exists`. -/
def FS.pexists (fs : FS) (p : String) : Bool :=
  (lookupA fs.files p).isSome || fs.dirs.contains p

/-- Python `os.path.isdir`. -/
def FS.isdir (fs : FS) (p : String) : Bool :=
  fs.dirs.contains p

/-- Python `os.listdir`. -/
def FS.listdir (fs : FS) (p : String) : Except PyErr (List String) :=
  fs.listing p

/-- Python `shutil.copy src dst`: fails when the injected fault is set or the
source does not exist; otherwise writes the source's content at `dst`,
silently replacing whatever was there. -/
def FS.copy (fs : FS) (src dst : String) : Except PyErr FS :=
  if fs.copyErr src dst then .error .copyError
  else
    match lookupA fs.files src with
    | none => .error .fileNotFound
    | some c => .ok { fs with files := setA fs.files dst c }

/-- Python `os.unlink`. -/
def FS.unlink (fs : FS) (p : String) : Except PyErr FS :=
  match lookupA fs.files p with
  | none => .error .fileNotFound
  | some _ => .ok { fs with files := removeA fs.files p }

/- ### The guessit oracle. -/

/-- The fields of a `guessit` result the program reads.  Each is optional:
`m[key]` on a missing key raises `KeyError`. -/
structure GuessMatch where
  gtype : Option String
  gtitle : Option String
  gseason : Option Nat
  gepisode : Option Nat

/-- The external metadata extractor: a pure oracle from paths to matches. -/
def Guess := String → GuessMatch

/- ### Configuration. -/

/-- The `Config` dataclass of the source. -/
structure Config where
  SourceDir : String
  TVDirs : List String
  SeasonFormat : String
  LogFile : String
deriving DecidableEq

/-- The key/value content `configparser` hands to `load_config`: whether
the `Default` section exists and the raw values of the four keys (a `none`
value models a missing key, on which `cfg.get` raises `NoOptionError`;
`SeasonFormat` and `LogFile` are read with fallbacks). -/
structure RawConfig where
  hasDefault : Bool
  SourceDir : Option String
  TVDirs : Option String
  SeasonFormat : Option String
  LogFile : Option String

/-- The default season-folder template. -/
def defaultSeasonFormat : String := "Season \x7bnr\x7d"

/-- The source's `load_config`: validate the section and required keys,
split `TVDirs` on commas, and drop every entry that does not exist on disk
with an error log; the survivors (possibly none) become `Config.TVDirs`. -/
def load_config (fs : FS) (raw : RawConfig) : Except PyErr Config × List Log :=
  if !raw.hasDefault then
    (.error (.exc "Invalid Config: Missing section Default"), [])
  else
    match raw.SourceDir with
    | none => (.error .noOptionError, [])
    | some source_dir =>
      if source_dir == "" then
        (.error (.exc "Invalid Config: Missing key SourceDir"), [])
      else
        match raw.TVDirs with
        | none => (.error .noOptionError, [])
        | some tvRaw =>
          if tvRaw == "" then
            (.error (.exc "Invalid Config: Missing csv key TVDirs"), [])
          else
            let season_format := raw.SeasonFormat.getD defaultSeasonFormat
            let tv_dirs := splitComma tvRaw
            let valid_tv_dirs := tv_dirs.filter (fun d => fs.pexists d)
            let dropped := tv_dirs.filter (fun d => !(fs.pexists d))
            (.ok { SourceDir := source_dir, TVDirs := valid_tv_dirs,
                   SeasonFormat := season_format,
                   LogFile := raw.LogFile.getD "" },
             dropped.map (fun d =>
               ⟨Level.error, s!"TV Dir {d} does not exist. Ignoring"⟩))

/- ### The program's processing functions. -/

/-- The source's `detect_tv_episode_info`: log the arrival, run
`guessit`, return `none` (with a warning) when the type is not `episode`,
and otherwise read `title`, `season` and `episode` — each read raises
`KeyError` when the key is absent from the match. -/
def detect_tv_episode_info (G : Guess) (path : String) :
    Except PyErr (Option (String × Nat × Nat)) × List Log :=
  let l0 : List Log := [⟨Level.info, s!"Got subtitle file {path}"⟩]
  let m := G path
  match m.gtype with
  | none => (.error .keyError, l0)
  | some t =>
    if t != "episode" then
      (.ok none,
       l0 ++ [⟨Level.warning, s!"Tv show not detected. Skipping file {path}"⟩])
    else
      match m.gtitle with
      | none => (.error .keyError, l0)
      | some title =>
        match m.gseason with
        | none => (.error .keyError, l0)
        | some season =>
          match m.gepisode with
          | none => (.error .keyError, l0)
          | some episode => (.ok (some (title, season, episode)), l0)

/-- The inner loop of `find_show_directory` over one library root's
listing: keep `root/sub` for every entry `sub` that is a directory and
whose lowercased name contains the lowercased title as a substring. -/
def matchesInRoot (fs : FS) (title tv_dir : String) : List String → List String
  | [] => []
  | sub :: rest =>
    let sub_path := joinPath tv_dir sub
    if fs.isdir sub_path && strContains (toLowerS sub) (toLowerS title) then
      sub_path :: matchesInRoot fs title tv_dir rest
    else
      matchesInRoot fs title tv_dir rest

/-- The outer loop of `find_show_directory`: accumulate the matches of
every configured library root in order; a failing `os.listdir` propagates
as the loop's exception (discarding any matches collected so far). -/
def collectMatches (fs : FS) (title : String) : List String → Except PyErr (List String)
  | [] => .ok []
  | tv_dir :: rest =>
    match fs.listdir tv_dir with
    | .error e => .error e
    | .ok subs =>
      match collectMatches fs title rest with
      | .error e => .error e
      | .ok more => .ok (matchesInRoot fs title tv_dir subs ++ more)

/-- The log message for an ambiguous show lookup. -/
def msgAmbiguous (title : String) (ms : List String) : String :=
  let joined := joinCommaSep ms
  s!"Ignoring subtitle. Found multiple possible target dirs for show {title}: {joined}"

/-- The log message for a show lookup with no match. -/
def msgNoDir (title : String) : String :=
  s!"Target directory for show {title} not found. Ignoring subtitle"

/-- The source's `find_show_directory`: collect all case-insensitive
substring matches under every library root; exactly one match is returned,
more than one yields `none` with a warning, zero yields `none` with an
error log.  (The `season` argument is unused, as in the source.) -/
def find_show_directory (fs : FS) (cfg : Config) (title : String) (season : Nat) :
    Except PyErr (Option String) × List Log :=
  match collectMatches fs title cfg.TVDirs with
  | .error e => (.error e, [])
  | .ok ms =>
    if ms.length == 1 then (.ok ms.head?, [])
    else if ms.length > 1 then
      (.ok none, [⟨Level.warning, msgAmbiguous title ms⟩])
    else
      (.ok none, [⟨Level.error, msgNoDir title⟩])

/-- The per-entry test of `find_episode_file`, with Python's short-circuit
`and`: read `type` (a missing key raises), and only when it is `episode`
read `season`, and only on a season match read `episode`. -/
def entryCheck (G : Guess) (f : String) (season episode : Nat) : Except PyErr Bool :=
  match (G f).gtype with
  | none => .error .keyError
  | some t =>
    if t == "episode" then
      match (G f).gseason with
      | none => .error .keyError
      | some s =>
        if s == season then
          match (G f).gepisode with
          | none => .error .keyError
          | some e => .ok (e == episode)
        else .ok false
    else .ok false

/-- The loop of `find_episode_file`: return the first listed entry whose
match passes `entryCheck` (first match wins). -/
def findEpisodeLoop (G : Guess) (season episode : Nat) :
    List String → Except PyErr (Option String)
  | [] => .ok none
  | f :: rest =>
    match entryCheck G f season episode with
    | .error e => .error e
    | .ok true => .ok (some f)
    | .ok false => findEpisodeLoop G season episode rest

/-- Rendering of a number the way Python's `{n:02d}` does: zero-padded
to two digits. -/
def pad2 (n : Nat) : String :=
  if n < 10 then "0" ++ Nat.repr n else Nat.repr n

/-- The fallback episode filename
`f"\x7btitle\x7d - S\x7bseason:02d\x7dE\x7bepisode:02d\x7d.mkv"`. -/
def fallbackName (title : String) (season episode : Nat) : String :=
  title ++ " - S" ++ pad2 season ++ "E" ++ pad2 episode ++ ".mkv"

/-- The source's `find_episode_file`: list the season directory and
scan for an entry `guessit` classifies as this season's episode (the
source's `os.path.join(episode_filename)` has a single argument and is the
identity, so the scan and the result use the bare entry name); when no
entry matches, synthesize the fallback name with confidence `fallback`. -/
def find_episode_file (fs : FS) (G : Guess) (season_directory title : String)
    (season episode : Nat) : Except PyErr (String × String) :=
  match fs.listdir season_directory with
  | .error e => .error e
  | .ok entries =>
    match findEpisodeLoop G season episode entries with
    | .error e => .error e
    | .ok (some f) => .ok (f, "exact")
    | .ok none => .ok (fallbackName title season episode, "fallback")

/-- Labels for the return points of `process_subtitle_file` (the Python
function returns `None` everywhere; which return was taken is observable
through its logs and filesystem effects, and these labels name them). -/
inductive Outcome
  | NotEpisode
  | NoShowDir
  | SeasonMissing
  | Placed (targetPath confidence : String)
deriving DecidableEq

/-- The source's `process_subtitle_file`: detect the episode, find the
show directory, check the season directory, resolve the episode filename,
build the target name from the episode base name and the subtitle's own
extension, then copy the subtitle to the target and unlink the source. -/
def process_subtitle_file (fs : FS) (G : Guess) (subtitle_path : String)
    (cfg : Config) : Except PyErr Outcome × FS × List Log :=
  match detect_tv_episode_info G subtitle_path with
  | (.error e, l) => (.error e, fs, l)
  | (.ok none, l) => (.ok .NotEpisode, fs, l)
  | (.ok (some (title, season, episode)), l) =>
    let sub_extension := (splitext subtitle_path).2
    match find_show_directory fs cfg title season with
    | (.error e, l2) => (.error e, fs, l ++ l2)
    | (.ok none, l2) => (.ok .NoShowDir, fs, l ++ l2)
    | (.ok (some show_directory), l2) =>
      let season_directory := joinPath show_directory (formatSeason cfg.SeasonFormat season)
      if !(fs.pexists season_directory) || !(fs.isdir season_directory) then
        (.ok .SeasonMissing, fs,
         l ++ l2 ++ [⟨Level.error,
           s!"Directory for Season {season} does not exist (path tried: {season_directory})"⟩])
      else
        match find_episode_file fs G season_directory title season episode with
        | .error e => (.error e, fs, l ++ l2)
        | .ok (episode_filename, confidence) =>
          let base_name := (splitext episode_filename).1
          let subtitle_filename := base_name ++ sub_extension
          let target_path := joinPath season_directory subtitle_filename
          let l3 : List Log := [⟨Level.info,
            s!"Will create subtitle file {subtitle_filename} [{confidence} match]. Target: {target_path}"⟩]
          match fs.copy subtitle_path target_path with
          | .error e => (.error e, fs, l ++ l2 ++ l3)
          | .ok fs2 =>
            match fs2.unlink subtitle_path with
            | .error e => (.error e, fs2, l ++ l2 ++ l3)
            | .ok fs3 =>
              (.ok (.Placed target_path confidence), fs3,
               l ++ l2 ++ l3 ++ [⟨Level.info, s!"File {subtitle_filename} removed from sink"⟩])

/-- The source's `is_subtitle_file`. -/
def is_subtitle_file (file_path : String) : Bool :=
  endsWithS file_path ".srt" || endsWithS file_path ".sbv" || endsWithS file_path ".sub"

/-- The source's `SubtitleFileEventHandler.process`: ignore events that
are neither `modified` nor `created`, silently skip paths that no longer
exist (the expected signature of a file the handler already consumed and
deleted), filter by `is_subtitle_file`, and only then process.  The result
carries the processing outcome when processing ran. -/
def SubtitleFileEventHandler.process (fs : FS) (G : Guess) (cfg : Config)
    (event_type src_path : String) : Except PyErr (Option Outcome) × FS × List Log :=
  if event_type != "modified" && event_type != "created" then (.ok none, fs, [])
  else if !(fs.pexists src_path) then (.ok none, fs, [])
  else if is_subtitle_file src_path then
    match process_subtitle_file fs G src_path cfg with
    | (.error e, fs2, l) => (.error e, fs2, l)
    | (.ok o, fs2, l) => (.ok (some o), fs2, l)
  else (.ok none, fs, [])

/-- The loop of `full_process` over the source directory's listing: skip
entries that are not subtitle files, process the others in order; an
exception aborts the sweep. -/
def fullProcessLoop (G : Guess) (cfg : Config) :
    List String → FS → Except PyErr Unit × FS × List Log
  | [], fs => (.ok (), fs, [])
  | path :: rest, fs =>
    let full_path := joinPath cfg.SourceDir path
    if !(is_subtitle_file full_path) then fullProcessLoop G cfg rest fs
    else
      match process_subtitle_file fs G full_path cfg with
      | (.error e, fs2, l) => (.error e, fs2, l)
      | (.ok _, fs2, l) =>
        match fullProcessLoop G cfg rest fs2 with
        | (r, fs3, l2) => (r, fs3, l ++ l2)

/-- The source's `full_process`: the initial sweep over `SourceDir`. -/
def full_process (fs : FS) (G : Guess) (cfg : Config) :
    Except PyErr Unit × FS × List Log :=
  match fs.listdir cfg.SourceDir with
  | .error e => (.error e, fs, [])
  | .ok paths => fullProcessLoop G cfg paths fs

/-- The startup portion of `main` after logging setup: load the
configuration (config exceptions propagate), and exit with code 1 when the
source directory is missing; the result is `true` when startup proceeds to
the sweep and the watch loop. -/
def main_startup (fs : FS) (raw : RawConfig) : Except PyErr Bool × List Log :=
  match load_config fs raw with
  | (.error e, l) => (.error e, l)
  | (.ok cfg, l) =>
    if !(fs.pexists cfg.SourceDir) || !(fs.isdir cfg.SourceDir) then
      let sd := cfg.SourceDir
      (.ok false, l ++ [⟨Level.error, s!"Source path {sd} does not exist"⟩])
    else (.ok true, l)

/- ### Concrete worlds used to instantiate the theorems. -/

/-- A guessit oracle for the concrete worlds: the incoming subtitle and the
library's video file both classify as episode 5 of season 2 of "Show";
everything else classifies as a movie. -/
def gHappy : Guess := fun p =>
  if p == "/src/show.s02e05.srt" then ⟨some "episode", some "Show", some 2, some 5⟩
  else if p == "Show - S02E05.mkv" then ⟨some "episode", some "Show", some 2, some 5⟩
  else ⟨some "movie", none, none, none⟩

/-- The configuration of the concrete worlds. -/
def cfgHappy : Config :=
  { SourceDir := "/src", TVDirs := ["/tv"],
    SeasonFormat := "Season \x7bnr\x7d", LogFile := "" }

/-- A filesystem on which processing succeeds end to end: one incoming
subtitle, one library root containing `Show (2019)` with a `Season 2`
folder holding the matching video file. -/
def fsHappy : FS :=
  { files := [("/src/show.s02e05.srt", "subs")]
    dirs := ["/src", "/tv", "/tv/Show (2019)", "/tv/Show (2019)/Season 2"]
    listing := fun p =>
      if p == "/src" then .ok ["show.s02e05.srt"]
      else if p == "/tv" then .ok ["Show (2019)"]
      else if p == "/tv/Show (2019)/Season 2" then .ok ["Show - S02E05.mkv"]
      else .ok []
    copyErr := fun _ _ => false }

/-- A library state with two directories both containing the title, for
exercising the ambiguity branch. -/
def fsAmb : FS :=
  { files := []
    dirs := ["/tv", "/tv/Show A", "/tv/Show B"]
    listing := fun p => if p == "/tv" then .ok ["Show A", "Show B"] else .ok []
    copyErr := fun _ _ => false }

/-- The happy world with the copy fault injected on every destination
(e.g. an unwritable library). -/
def fsFail : FS := { fsHappy with copyErr := fun _ _ => true }

/-- A world whose season-3 directory exists but lists no entries, for the
fallback branch. -/
def fsNoEp : FS :=
  { files := [("/src/show.s03e07.srt", "subs")]
    dirs := ["/src", "/tv", "/tv/Show (2019)", "/tv/Show (2019)/Season 3"]
    listing := fun p => if p == "/tv" then .ok ["Show (2019)"] else .ok []
    copyErr := fun _ _ => false }

/-- The happy world with a previously placed subtitle already sitting at
the computed target path. -/
def fsOver : FS := { fsHappy with files :=
  [("/src/show.s02e05.srt", "new subs"),
   ("/tv/Show (2019)/Season 2/Show - S02E05.srt", "old subs")] }

/-- A guessit oracle whose match claims type "episode" but carries no
title, season or episode — the malformed output of C3. -/
def gMalformed : Guess := fun _ => ⟨some "episode", none, none, none⟩

/-- The configuration file of the C4 scenario: one `TVDirs` entry that
does not exist on disk. -/
def rawC4 : RawConfig :=
  { hasDefault := true, SourceDir := some "/inbox", TVDirs := some "/lib1",
    SeasonFormat := none, LogFile := none }

/-- The filesystem of the C4 scenario: the source directory exists, the
library root does not. -/
def fsC4 : FS :=
  { files := [], dirs := ["/inbox"], listing := fun _ => .ok [], copyErr := fun _ _ => false }

/-- The two-root library of the C7 scenario: listing the first root
raises, the second root contains the unique match. -/
def fsTwoRoots : FS :=
  { files := []
    dirs := ["/r1", "/r2", "/r2/Show"]
    listing := fun p => if p == "/r2" then .ok ["Show"] else .error .osError
    copyErr := fun _ _ => false }

/-- The configuration of the C7 scenario. -/
def cfgTwoRoots : Config :=
  { SourceDir := "/src", TVDirs := ["/r1", "/r2"],
    SeasonFormat := "Season \x7bnr\x7d", LogFile := "" }

/- ### Decidability of result comparisons. -/

instance {ε α : Type} [DecidableEq ε] [DecidableEq α] : DecidableEq (Except ε α) := fun a b =>
  match a, b with
  | .error e, .error f =>
    if h : e = f then .isTrue (by rw [h]) else .isFalse (by simp [h])
  | .ok x, .ok y =>
    if h : x = y then .isTrue (by rw [h]) else .isFalse (by simp [h])
  | .error _, .ok _ => .isFalse (by simp)
  | .ok _, .error _ => .isFalse (by simp)

/- ### Helper lemmas about the string utilities. -/

theorem charsLead_iff (a : List Char) : ∀ b, charsLead a b = true ↔ ∃ t, b = a ++ t := by
  induction a with
  | nil =>
    intro b
    exact ⟨fun _ => ⟨b, rfl⟩, fun _ => rfl⟩
  | cons x xs ih =>
    intro b
    cases b with
    | nil => simp [charsLead]
    | cons y ys =>
      simp only [charsLead, Bool.and_eq_true, beq_iff_eq, ih, List.cons_append,
        List.cons.injEq]
      constructor
      · rintro ⟨hxy, t, ht⟩
        exact ⟨t, hxy.symm, ht⟩
      · rintro ⟨t, hy, hys⟩
        exact ⟨hy.symm, t, hys⟩

theorem endsWithS_iff (s q : String) :
    endsWithS s q = true ↔ ∃ pre : String, s = pre ++ q := by
  unfold endsWithS
  rw [charsLead_iff]
  constructor
  · rintro ⟨t, ht⟩
    refine ⟨String.mk t.reverse, String.ext ?_⟩
    have : s.data.reverse.reverse = (q.data.reverse ++ t).reverse := by rw [ht]
    simpa [List.reverse_append] using this
  · rintro ⟨pre, hpre⟩
    refine ⟨pre.data.reverse, ?_⟩
    subst hpre
    simp [String.data_append, List.reverse_append]

/- ### Helper lemmas about the association-list filesystem. -/

theorem lookupA_removeA (l : List (String × String)) (k : String) :
    lookupA (removeA l k) k = none := by
  induction l with
  | nil => rfl
  | cons p rest ih =>
    obtain ⟨a, b⟩ := p
    unfold removeA
    split
    · exact ih
    next hne =>
      unfold lookupA
      rw [if_neg hne]
      exact ih

theorem lookupA_removeA_ne (l : List (String × String)) (k k' : String) (h : k ≠ k') :
    lookupA (removeA l k') k = lookupA l k := by
  induction l with
  | nil => rfl
  | cons p rest ih =>
    obtain ⟨a, b⟩ := p
    by_cases h1 : (a == k') = true
    · have hak : ¬((a == k) = true) := by
        simp only [beq_iff_eq] at h1 ⊢
        exact fun hc => h (hc ▸ h1)
      simp only [removeA, lookupA, if_pos h1, if_neg hak]
      exact ih
    · simp only [removeA, lookupA, if_neg h1]
      by_cases h2 : (a == k) = true
      · simp only [lookupA, if_pos h2]
      · simp only [lookupA, if_neg h2]
        exact ih

theorem lookupA_setA_self (l : List (String × String)) (k v : String) :
    lookupA (setA l k v) k = some v := by
  induction l with
  | nil => simp [setA, lookupA]
  | cons p rest ih =>
    obtain ⟨a, b⟩ := p
    unfold setA
    split
    next heq => simp [lookupA]
    next hne =>
      unfold lookupA
      rw [if_neg hne]
      exact ih

theorem copy_ok {fs fs2 : FS} {src dst : String} (h : fs.copy src dst = .ok fs2) :
    ∃ c, lookupA fs.files src = some c ∧
      fs2 = { fs with files := setA fs.files dst c } := by
  unfold FS.copy at h
  split at h
  · cases h
  · split at h
    · cases h
    next c hc =>
      cases h
      exact ⟨c, hc, rfl⟩

theorem unlink_ok {fs fs2 : FS} {p : String} (h : fs.unlink p = .ok fs2) :
    ∃ c, lookupA fs.files p = some c ∧
      fs2 = { fs with files := removeA fs.files p } := by
  unfold FS.unlink at h
  split at h
  · cases h
  next c hc =>
    cases h
    exact ⟨c, hc, rfl⟩

/- ### Inversion lemmas for the processing stages. -/

theorem detect_some_logs (G : Guess) (path : String) (t : String × Nat × Nat) (l : List Log)
    (h : detect_tv_episode_info G path = (.ok (some t), l)) :
    l = [⟨Level.info, s!"Got subtitle file {path}"⟩] := by
  unfold detect_tv_episode_info at h
  dsimp only at h
  split at h
  · cases h
  · split at h
    · cases h
    · split at h
      · cases h
      · split at h
        · cases h
        · split at h
          · cases h
          · injection h with h1 h2
            exact h2.symm

theorem find_show_some_logs (fs : FS) (cfg : Config) (title : String) (season : Nat)
    (d : String) (l2 : List Log)
    (h : find_show_directory fs cfg title season = (.ok (some d), l2)) :
    l2 = [] := by
  unfold find_show_directory at h
  split at h
  · cases h
  · split at h
    · injection h with h1 h2
      exact h2.symm
    · split at h
      · injection h with h1 h2
        cases h1
      · injection h with h1 h2
        cases h1

/-- Inversion of a successful placement: the stages it went through, the
shape of the target path, the copy-then-unlink of the final step, and that
all its log lines are informational. -/
theorem process_placed_cases (fs : FS) (G : Guess) (path : String) (cfg : Config)
    (target conf : String)
    (h : (process_subtitle_file fs G path cfg).1 = .ok (.Placed target conf)) :
    ∃ title season episode showDir epName fs2,
      (detect_tv_episode_info G path).1 = .ok (some (title, season, episode)) ∧
      (find_show_directory fs cfg title season).1 = .ok (some showDir) ∧
      find_episode_file fs G (joinPath showDir (formatSeason cfg.SeasonFormat season))
          title season episode = .ok (epName, conf) ∧
      target = joinPath (joinPath showDir (formatSeason cfg.SeasonFormat season))
          ((splitext epName).1 ++ (splitext path).2) ∧
      fs.copy path target = .ok fs2 ∧
      fs2.unlink path = .ok (process_subtitle_file fs G path cfg).2.1 ∧
      (∀ e ∈ (process_subtitle_file fs G path cfg).2.2, e.level = Level.info) := by
  rcases hq : process_subtitle_file fs G path cfg with ⟨r, fs', l⟩
  rw [hq] at h
  dsimp only at h ⊢
  rcases hd : detect_tv_episode_info G path with ⟨rd, ld⟩
  match rd, hd with
  | .error e, hd =>
    simp only [process_subtitle_file, hd] at hq
    have h1 : Except.error e = r := congrArg Prod.fst hq
    exact Except.noConfusion (h1.trans h)
  | .ok none, hd =>
    simp only [process_subtitle_file, hd] at hq
    have h1 : Except.ok Outcome.NotEpisode = r := congrArg Prod.fst hq
    exact Outcome.noConfusion (Except.ok.inj (h1.trans h))
  | .ok (some (title, season, episode)), hd =>
    rcases hs : find_show_directory fs cfg title season with ⟨rs, ls⟩
    match rs, hs with
    | .error e, hs =>
      simp only [process_subtitle_file, hd, hs] at hq
      have h1 : Except.error e = r := congrArg Prod.fst hq
      exact Except.noConfusion (h1.trans h)
    | .ok none, hs =>
      simp only [process_subtitle_file, hd, hs] at hq
      have h1 : Except.ok Outcome.NoShowDir = r := congrArg Prod.fst hq
      exact Outcome.noConfusion (Except.ok.inj (h1.trans h))
    | .ok (some show_directory), hs =>
      by_cases hc : (!(fs.pexists (joinPath show_directory (formatSeason cfg.SeasonFormat season))) ||
          !(fs.isdir (joinPath show_directory (formatSeason cfg.SeasonFormat season)))) = true
      · simp only [process_subtitle_file, hd, hs, if_pos hc] at hq
        have h1 : Except.ok Outcome.SeasonMissing = r := congrArg Prod.fst hq
        exact Outcome.noConfusion (Except.ok.inj (h1.trans h))
      · rcases he : find_episode_file fs G
            (joinPath show_directory (formatSeason cfg.SeasonFormat season))
            title season episode with re | ⟨epName, confidence⟩
        · simp only [process_subtitle_file, hd, hs, if_neg hc, he] at hq
          have h1 : Except.error re = r := congrArg Prod.fst hq
          exact Except.noConfusion (h1.trans h)
        · rcases hcopy : fs.copy path
              (joinPath (joinPath show_directory (formatSeason cfg.SeasonFormat season))
                ((splitext epName).1 ++ (splitext path).2)) with ce | fs2
          · simp only [process_subtitle_file, hd, hs, if_neg hc, he, hcopy] at hq
            have h1 : Except.error ce = r := congrArg Prod.fst hq
            exact Except.noConfusion (h1.trans h)
          · rcases hu : fs2.unlink path with ue | fs3
            · simp only [process_subtitle_file, hd, hs, if_neg hc, he, hcopy, hu] at hq
              have h1 : Except.error ue = r := congrArg Prod.fst hq
              exact Except.noConfusion (h1.trans h)
            · simp only [process_subtitle_file, hd, hs, if_neg hc, he, hcopy, hu] at hq
              have h1 : Except.ok (Outcome.Placed
                  (joinPath (joinPath show_directory (formatSeason cfg.SeasonFormat season))
                    ((splitext epName).1 ++ (splitext path).2)) confidence) = r :=
                congrArg Prod.fst hq
              have h2 : fs3 = fs' := congrArg (fun p => p.2.1) hq
              have h3 : ld ++ ls ++ _ ++ _ = l := congrArg (fun p => p.2.2) hq
              have hpl := Except.ok.inj (h1.trans h)
              injection hpl with htp hcf
              refine ⟨title, season, episode, show_directory, epName, fs2,
                ?_, ?_, ?_, ?_, ?_, ?_, ?_⟩
              · rfl
              · rw [hs]
              · rw [he, hcf]
              · exact htp.symm
              · rw [← htp]
                exact hcopy
              · rw [← h2]
                exact hu
              · intro x hx
                rw [← h3] at hx
                rw [detect_some_logs G path _ ld hd] at hx
                rw [find_show_some_logs fs cfg title season show_directory ls hs] at hx
                simp only [List.append_nil, List.mem_append, List.mem_singleton,
                  List.mem_cons, List.not_mem_nil, or_false] at hx
                rcases hx with (hx | hx) | hx <;> subst hx <;> rfl

/-- A run that ends in a non-`Placed` outcome leaves the filesystem
untouched. -/
theorem process_skip_fs (fs : FS) (G : Guess) (path : String) (cfg : Config) (o : Outcome)
    (h : (process_subtitle_file fs G path cfg).1 = .ok o) (ho : ∀ t c, o ≠ .Placed t c) :
    (process_subtitle_file fs G path cfg).2.1 = fs := by
  rcases hq : process_subtitle_file fs G path cfg with ⟨r, fs', l⟩
  rw [hq] at h
  dsimp only at h ⊢
  rcases hd : detect_tv_episode_info G path with ⟨rd, ld⟩
  match rd, hd with
  | .error e, hd =>
    simp only [process_subtitle_file, hd] at hq
    have h1 : Except.error e = r := congrArg Prod.fst hq
    exact Except.noConfusion (h1.trans h)
  | .ok none, hd =>
    simp only [process_subtitle_file, hd] at hq
    exact (congrArg (fun p => p.2.1) hq).symm
  | .ok (some (title, season, episode)), hd =>
    rcases hs : find_show_directory fs cfg title season with ⟨rs, ls⟩
    match rs, hs with
    | .error e, hs =>
      simp only [process_subtitle_file, hd, hs] at hq
      have h1 : Except.error e = r := congrArg Prod.fst hq
      exact Except.noConfusion (h1.trans h)
    | .ok none, hs =>
      simp only [process_subtitle_file, hd, hs] at hq
      exact (congrArg (fun p => p.2.1) hq).symm
    | .ok (some show_directory), hs =>
      by_cases hc : (!(fs.pexists (joinPath show_directory (formatSeason cfg.SeasonFormat season))) ||
          !(fs.isdir (joinPath show_directory (formatSeason cfg.SeasonFormat season)))) = true
      · simp only [process_subtitle_file, hd, hs, if_pos hc] at hq
        exact (congrArg (fun p => p.2.1) hq).symm
      · rcases he : find_episode_file fs G
            (joinPath show_directory (formatSeason cfg.SeasonFormat season))
            title season episode with re | ⟨epName, confidence⟩
        · simp only [process_subtitle_file, hd, hs, if_neg hc, he] at hq
          have h1 : Except.error re = r := congrArg Prod.fst hq
          exact Except.noConfusion (h1.trans h)
        · rcases hcopy : fs.copy path
              (joinPath (joinPath show_directory (formatSeason cfg.SeasonFormat season))
                ((splitext epName).1 ++ (splitext path).2)) with ce | fs2
          · simp only [process_subtitle_file, hd, hs, if_neg hc, he, hcopy] at hq
            have h1 : Except.error ce = r := congrArg Prod.fst hq
            exact Except.noConfusion (h1.trans h)
          · rcases hu : fs2.unlink path with ue | fs3
            · simp only [process_subtitle_file, hd, hs, if_neg hc, he, hcopy, hu] at hq
              have h1 : Except.error ue = r := congrArg Prod.fst hq
              exact Except.noConfusion (h1.trans h)
            · simp only [process_subtitle_file, hd, hs, if_neg hc, he, hcopy, hu] at hq
              have h1 : Except.ok (Outcome.Placed
                  (joinPath (joinPath show_directory (formatSeason cfg.SeasonFormat season))
                    ((splitext epName).1 ++ (splitext path).2)) confidence) = r :=
                congrArg Prod.fst hq
              exact absurd (Except.ok.inj (h1.trans h)).symm (ho _ _)

theorem process_copyfail (fs : FS) (G : Guess) (path : String) (cfg : Config)
    (hfail : ∀ dst, fs.copyErr path dst = true) :
    (∀ t c, (process_subtitle_file fs G path cfg).1 ≠ .ok (.Placed t c)) ∧
    (process_subtitle_file fs G path cfg).2.1 = fs := by
  rcases hq : process_subtitle_file fs G path cfg with ⟨r, fs', l⟩
  dsimp only
  rcases hd : detect_tv_episode_info G path with ⟨rd, ld⟩
  match rd, hd with
  | .error e, hd =>
    simp only [process_subtitle_file, hd] at hq
    have h1 : Except.error e = r := congrArg Prod.fst hq
    exact ⟨fun t c hcon => Except.noConfusion (h1.trans hcon),
      (congrArg (fun p => p.2.1) hq).symm⟩
  | .ok none, hd =>
    simp only [process_subtitle_file, hd] at hq
    have h1 : Except.ok Outcome.NotEpisode = r := congrArg Prod.fst hq
    exact ⟨fun t c hcon => Outcome.noConfusion (Except.ok.inj (h1.trans hcon)),
      (congrArg (fun p => p.2.1) hq).symm⟩
  | .ok (some (title, season, episode)), hd =>
    rcases hs : find_show_directory fs cfg title season with ⟨rs, ls⟩
    match rs, hs with
    | .error e, hs =>
      simp only [process_subtitle_file, hd, hs] at hq
      have h1 : Except.error e = r := congrArg Prod.fst hq
      exact ⟨fun t c hcon => Except.noConfusion (h1.trans hcon),
        (congrArg (fun p => p.2.1) hq).symm⟩
    | .ok none, hs =>
      simp only [process_subtitle_file, hd, hs] at hq
      have h1 : Except.ok Outcome.NoShowDir = r := congrArg Prod.fst hq
      exact ⟨fun t c hcon => Outcome.noConfusion (Except.ok.inj (h1.trans hcon)),
        (congrArg (fun p => p.2.1) hq).symm⟩
    | .ok (some show_directory), hs =>
      by_cases hc : (!(fs.pexists (joinPath show_directory (formatSeason cfg.SeasonFormat season))) ||
          !(fs.isdir (joinPath show_directory (formatSeason cfg.SeasonFormat season)))) = true
      · simp only [process_subtitle_file, hd, hs, if_pos hc] at hq
        have h1 : Except.ok Outcome.SeasonMissing = r := congrArg Prod.fst hq
        exact ⟨fun t c hcon => Outcome.noConfusion (Except.ok.inj (h1.trans hcon)),
          (congrArg (fun p => p.2.1) hq).symm⟩
      · rcases he : find_episode_file fs G
            (joinPath show_directory (formatSeason cfg.SeasonFormat season))
            title season episode with re | ⟨epName, confidence⟩
        · simp only [process_subtitle_file, hd, hs, if_neg hc, he] at hq
          have h1 : Except.error re = r := congrArg Prod.fst hq
          exact ⟨fun t c hcon => Except.noConfusion (h1.trans hcon),
            (congrArg (fun p => p.2.1) hq).symm⟩
        · have hcopy : fs.copy path
              (joinPath (joinPath show_directory (formatSeason cfg.SeasonFormat season))
                ((splitext epName).1 ++ (splitext path).2)) = .error .copyError := by
            unfold FS.copy
            rw [if_pos (hfail _)]
          simp only [process_subtitle_file, hd, hs, if_neg hc, he, hcopy] at hq
          have h1 : Except.error PyErr.copyError = r := congrArg Prod.fst hq
          exact ⟨fun t c hcon => Except.noConfusion (h1.trans hcon),
            (congrArg (fun p => p.2.1) hq).symm⟩

/-- A placement reported through an event came from `process_subtitle_file`
on the event path, and the handler passes its filesystem through. -/
theorem handler_placed (fs : FS) (G : Guess) (cfg : Config) (et p t c : String)
    (h : (SubtitleFileEventHandler.process fs G cfg et p).1 = .ok (some (.Placed t c))) :
    (process_subtitle_file fs G p cfg).1 = .ok (.Placed t c) ∧
    (SubtitleFileEventHandler.process fs G cfg et p).2.1 = (process_subtitle_file fs G p cfg).2.1 := by
  rcases hq : SubtitleFileEventHandler.process fs G cfg et p with ⟨r, fs', l⟩
  rw [hq] at h
  dsimp only at h ⊢
  by_cases h1 : (et != "modified" && et != "created") = true
  · simp only [SubtitleFileEventHandler.process, if_pos h1] at hq
    have hr : Except.ok (Option.none (α := Outcome)) = r := congrArg Prod.fst hq
    exact Option.noConfusion (Except.ok.inj (hr.trans h))
  · by_cases h2 : (!(fs.pexists p)) = true
    · simp only [SubtitleFileEventHandler.process, if_neg h1, if_pos h2] at hq
      have hr : Except.ok (Option.none (α := Outcome)) = r := congrArg Prod.fst hq
      exact Option.noConfusion (Except.ok.inj (hr.trans h))
    · by_cases h3 : is_subtitle_file p = true
      · rcases hp : process_subtitle_file fs G p cfg with ⟨rp, fsp, lp⟩
        match rp, hp with
        | .error e, hp =>
          simp only [SubtitleFileEventHandler.process, if_neg h1, if_neg h2, if_pos h3, hp] at hq
          have hr : Except.error (α := Option Outcome) e = r := congrArg Prod.fst hq
          exact Except.noConfusion (hr.trans h)
        | .ok o, hp =>
          simp only [SubtitleFileEventHandler.process, if_neg h1, if_neg h2, if_pos h3, hp] at hq
          have hr : Except.ok (some o) = r := congrArg Prod.fst hq
          have ho : o = .Placed t c := Option.some.inj (Except.ok.inj (hr.trans h))
          subst ho
          exact ⟨rfl, ((congrArg (fun q => q.2.1) hq).symm.trans rfl : fs' = fsp)⟩
      · simp only [SubtitleFileEventHandler.process, if_neg h1, if_neg h2, if_neg h3] at hq
        have hr : Except.ok (Option.none (α := Outcome)) = r := congrArg Prod.fst hq
        exact Option.noConfusion (Except.ok.inj (hr.trans h))

/-- Membership in one root's matches is exactly the case-insensitive
substring test on its directory entries. -/
theorem mem_matchesInRoot (fs : FS) (title tv_dir : String) :
    ∀ subs d, d ∈ matchesInRoot fs title tv_dir subs ↔
      ∃ sub ∈ subs, d = joinPath tv_dir sub ∧ fs.isdir (joinPath tv_dir sub) = true ∧
        strContains (toLowerS sub) (toLowerS title) = true := by
  intro subs
  induction subs with
  | nil => simp [matchesInRoot]
  | cons s rest ih =>
    intro d
    simp only [matchesInRoot]
    split
    next hcond =>
      rw [Bool.and_eq_true] at hcond
      simp only [List.mem_cons, ih]
      constructor
      · rintro (rfl | ⟨sub, hsub, hrest⟩)
        · exact ⟨s, Or.inl rfl, rfl, hcond.1, hcond.2⟩
        · exact ⟨sub, Or.inr hsub, hrest⟩
      · rintro ⟨sub, hsub | hsub, hrest⟩
        · subst hsub
          exact Or.inl hrest.1
        · exact Or.inr ⟨sub, hsub, hrest⟩
    next hcond =>
      simp only [ih, List.mem_cons]
      constructor
      · rintro ⟨sub, hsub, hrest⟩
        exact ⟨sub, Or.inr hsub, hrest⟩
      · rintro ⟨sub, hsub | hsub, hrest⟩
        · subst hsub
          exact absurd (by rw [hrest.2.1, hrest.2.2]; rfl) hcond
        · exact ⟨sub, hsub, hrest⟩

theorem collectMatches_ok_mem (fs : FS) (title : String) :
    ∀ roots ms, collectMatches fs title roots = .ok ms →
      ∀ d, d ∈ ms ↔ ∃ root ∈ roots, ∃ subs, fs.listdir root = .ok subs ∧
        d ∈ matchesInRoot fs title root subs := by
  intro roots
  induction roots with
  | nil =>
    intro ms h d
    injection h with h
    subst h
    simp
  | cons r rest ih =>
    intro ms h d
    unfold collectMatches at h
    rcases hl : fs.listdir r with e | subs
    · rw [hl] at h
      cases h
    · rw [hl] at h
      rcases hm : collectMatches fs title rest with e2 | more
      · rw [hm] at h
        cases h
      · rw [hm] at h
        injection h with h
        subst h
        simp only [List.mem_append, ih more hm d, List.mem_cons]
        constructor
        · rintro (hmem | ⟨root, hroot, hrest⟩)
          · exact ⟨r, Or.inl rfl, subs, hl, hmem⟩
          · exact ⟨root, Or.inr hroot, hrest⟩
        · rintro ⟨root, hroot | hroot, subs2, hl2, hmem⟩
          · subst hroot
            rw [hl] at hl2
            injection hl2 with hl2
            subst hl2
            exact Or.inl hmem
          · exact Or.inr ⟨root, hroot, subs2, hl2, hmem⟩

theorem collectMatches_err (fs : FS) (title : String) :
    ∀ roots, (∃ root ∈ roots, ∃ e, fs.listdir root = .error e) →
      ∃ e2, collectMatches fs title roots = .error e2 := by
  intro roots
  induction roots with
  | nil =>
    rintro ⟨root, hmem, -⟩
    cases hmem
  | cons r rest ih =>
    rintro ⟨root, hmem, e, herr⟩
    rcases List.mem_cons.mp hmem with rfl | hmem2
    · exact ⟨e, by unfold collectMatches; rw [herr]⟩
    · rcases hl : fs.listdir r with e3 | subs
      · exact ⟨e3, by unfold collectMatches; rw [hl]⟩
      · obtain ⟨e2, h2⟩ := ih ⟨root, hmem2, e, herr⟩
        exact ⟨e2, by unfold collectMatches; rw [hl, h2]⟩

/- ### The claims. -/

/-- C9: the eligibility test is an exact case-sensitive suffix check — a
path is eligible iff it literally ends in ".srt", ".sbv" or ".sub"; the
upper-case variant "video.SRT" is ignored, and a path whose whole basename
is ".srt" is accepted. -/
theorem c9_suffix_exact :
    (∀ p : String, is_subtitle_file p = true ↔
      ((∃ pre : String, p = pre ++ ".srt") ∨ (∃ pre : String, p = pre ++ ".sbv") ∨
       (∃ pre : String, p = pre ++ ".sub")))
    ∧ is_subtitle_file "video.SRT" = false
    ∧ is_subtitle_file ".srt" = true
    ∧ is_subtitle_file "/inbox/.srt" = true := by
  refine ⟨fun p => ?_, by decide, by decide, by decide⟩
  unfold is_subtitle_file
  simp only [Bool.or_eq_true, endsWithS_iff]
  rw [or_assoc]

/-- Witness for C9 at the concrete inputs "movie.srt" and "video.SRT". -/
theorem c9_suffix_exact_witness :
    ((∃ pre : String, "movie.srt" = pre ++ ".srt") ∨
     (∃ pre : String, "movie.srt" = pre ++ ".sbv") ∨
     (∃ pre : String, "movie.srt" = pre ++ ".sub")) ∧
    is_subtitle_file "video.SRT" = false :=
  ⟨(c9_suffix_exact.1 "movie.srt").mp (by decide), c9_suffix_exact.2.1⟩

/-- C8: a path that is not a subtitle file is ignored by the event handler
and by the startup sweep before any extraction runs — no outcome, no log,
no filesystem change. -/
theorem c8_extension_filter (fs : FS) (G : Guess) (cfg : Config) (event_type p name : String)
    (h : is_subtitle_file p = false)
    (h2 : is_subtitle_file (joinPath cfg.SourceDir name) = false) :
    SubtitleFileEventHandler.process fs G cfg event_type p = (.ok none, fs, []) ∧
    (∀ rest, fullProcessLoop G cfg (name :: rest) fs = fullProcessLoop G cfg rest fs) := by
  constructor
  · unfold SubtitleFileEventHandler.process
    by_cases h1 : (event_type != "modified" && event_type != "created") = true
    · rw [if_pos h1]
    · rw [if_neg h1]
      by_cases hx : (!(fs.pexists p)) = true
      · rw [if_pos hx]
      · rw [if_neg hx, if_neg (by simp [h])]
  · intro rest
    rw [fullProcessLoop]
    rw [if_pos (by rw [h2]; rfl)]

/-- Witness for C8: a text file delivered by an event and present in the
sweep listing is skipped both ways. -/
theorem c8_extension_filter_witness :
    SubtitleFileEventHandler.process fsHappy gHappy cfgHappy "created" "/src/notes.txt"
        = (.ok none, fsHappy, []) ∧
    fullProcessLoop gHappy cfgHappy ["notes.txt"] fsHappy
        = fullProcessLoop gHappy cfgHappy [] fsHappy := by
  have h := c8_extension_filter fsHappy gHappy cfgHappy "created" "/src/notes.txt" "notes.txt"
    (by decide) (by decide)
  exact ⟨h.1, h.2 []⟩

/-- C2: the show lookup is a case-insensitive substring match of the title
against the directory entries of all library roots; exactly one match
returns its path with no log, zero matches return none with the not-found
error line (the code's rendering of the no-directory skip), several
matches return none with the ambiguity warning (never auto-resolved), and
a lookup that returns none leaves the filesystem unchanged. -/
theorem c2_show_lookup (fs : FS) (cfg : Config) (title : String) (season : Nat) :
    (∀ ms, collectMatches fs title cfg.TVDirs = .ok ms →
      ∀ d, d ∈ ms ↔ ∃ root ∈ cfg.TVDirs, ∃ subs, fs.listdir root = .ok subs ∧
        ∃ sub ∈ subs, d = joinPath root sub ∧ fs.isdir (joinPath root sub) = true ∧
          strContains (toLowerS sub) (toLowerS title) = true)
    ∧ (∀ d, collectMatches fs title cfg.TVDirs = .ok [d] →
        find_show_directory fs cfg title season = (.ok (some d), []))
    ∧ (collectMatches fs title cfg.TVDirs = .ok [] →
        find_show_directory fs cfg title season = (.ok none, [⟨Level.error, msgNoDir title⟩]))
    ∧ (∀ ms, collectMatches fs title cfg.TVDirs = .ok ms → 2 ≤ ms.length →
        find_show_directory fs cfg title season =
          (.ok none, [⟨Level.warning, msgAmbiguous title ms⟩]))
    ∧ (∀ (G : Guess) (path : String),
        (process_subtitle_file fs G path cfg).1 = .ok .NoShowDir →
        (process_subtitle_file fs G path cfg).2.1 = fs) := by
  refine ⟨?_, ?_, ?_, ?_, ?_⟩
  · intro ms hok d
    rw [collectMatches_ok_mem fs title cfg.TVDirs ms hok d]
    constructor
    · rintro ⟨root, hroot, subs, hsubs, hmem⟩
      rw [mem_matchesInRoot fs title root subs d] at hmem
      exact ⟨root, hroot, subs, hsubs, hmem⟩
    · rintro ⟨root, hroot, subs, hsubs, hmem⟩
      exact ⟨root, hroot, subs, hsubs, (mem_matchesInRoot fs title root subs d).mpr hmem⟩
  · intro d hok
    unfold find_show_directory
    rw [hok]
    rfl
  · intro hok
    unfold find_show_directory
    rw [hok]
    rfl
  · intro ms hok hlen
    unfold find_show_directory
    rw [hok]
    dsimp only
    rw [if_neg (by simp only [beq_iff_eq]; omega)]
    rw [if_pos (by omega)]
  · intro G path h
    exact process_skip_fs fs G path cfg .NoShowDir h (fun t c => Outcome.noConfusion)

/-- Witness for C2: one, zero and two matches at concrete library
states. -/
theorem c2_show_lookup_witness :
    find_show_directory fsHappy cfgHappy "Show" 2 = (.ok (some "/tv/Show (2019)"), []) ∧
    find_show_directory fsHappy cfgHappy "Nothing" 2
        = (.ok none, [⟨Level.error, msgNoDir "Nothing"⟩]) ∧
    find_show_directory fsAmb cfgHappy "Show" 1
        = (.ok none, [⟨Level.warning, msgAmbiguous "Show" ["/tv/Show A", "/tv/Show B"]⟩]) :=
  ⟨(c2_show_lookup fsHappy cfgHappy "Show" 2).2.1 "/tv/Show (2019)" (by decide),
   (c2_show_lookup fsHappy cfgHappy "Nothing" 2).2.2.1 (by decide),
   (c2_show_lookup fsAmb cfgHappy "Show" 1).2.2.2.1 ["/tv/Show A", "/tv/Show B"]
     (by decide) (by decide)⟩

/-- C1: a successful placement performed the copy to the target and only
then the unlink of the source; and when every copy from the source fails,
no placement is ever reported and the filesystem (and with it the source
file) is exactly as before. -/
theorem c1_copy_then_delete (fs : FS) (G : Guess) (path : String) (cfg : Config) :
    (∀ target conf, (process_subtitle_file fs G path cfg).1 = .ok (.Placed target conf) →
      ∃ fs2, fs.copy path target = .ok fs2 ∧
        fs2.unlink path = .ok (process_subtitle_file fs G path cfg).2.1)
    ∧ ((∀ dst, fs.copyErr path dst = true) →
        (∀ target conf, (process_subtitle_file fs G path cfg).1 ≠ .ok (.Placed target conf)) ∧
        (process_subtitle_file fs G path cfg).2.1 = fs) := by
  constructor
  · intro target conf h
    obtain ⟨-, -, -, -, -, fs2, -, -, -, -, h5, h6, -⟩ :=
      process_placed_cases fs G path cfg target conf h
    exact ⟨fs2, h5, h6⟩
  · exact process_copyfail fs G path cfg

/-- Witness for C1: the successful run at `fsHappy` went copy-then-unlink,
and at `fsFail` the run reports no placement and leaves the filesystem
untouched. -/
theorem c1_copy_then_delete_witness :
    (∃ fs2, fsHappy.copy "/src/show.s02e05.srt" "/tv/Show (2019)/Season 2/Show - S02E05.srt"
        = .ok fs2 ∧
      fs2.unlink "/src/show.s02e05.srt"
        = .ok (process_subtitle_file fsHappy gHappy "/src/show.s02e05.srt" cfgHappy).2.1) ∧
    ((∀ target conf, (process_subtitle_file fsFail gHappy "/src/show.s02e05.srt" cfgHappy).1
        ≠ .ok (.Placed target conf)) ∧
      (process_subtitle_file fsFail gHappy "/src/show.s02e05.srt" cfgHappy).2.1 = fsFail) :=
  ⟨(c1_copy_then_delete fsHappy gHappy "/src/show.s02e05.srt" cfgHappy).1
      "/tv/Show (2019)/Season 2/Show - S02E05.srt" "exact" (by decide),
   (c1_copy_then_delete fsFail gHappy "/src/show.s02e05.srt" cfgHappy).2 (fun dst => rfl)⟩

theorem findEpisodeLoop_none (G : Guess) (season episode : Nat) :
    ∀ entries, (∀ f ∈ entries, entryCheck G f season episode = .ok false) →
      findEpisodeLoop G season episode entries = .ok none := by
  intro entries
  induction entries with
  | nil => intro _; rfl
  | cons f rest ih =>
    intro hno
    unfold findEpisodeLoop
    rw [hno f (List.mem_cons_self f rest)]
    exact ih (fun g hg => hno g (List.mem_cons_of_mem f hg))

/-- C5: a placement's target filename is the resolved episode filename
with its extension stripped plus the original subtitle's extension; and
when no listed entry of the season directory passes the season/episode
check, the resolved filename is the synthesized zero-padded fallback with
confidence `fallback`. -/
theorem c5_naming (fs : FS) (G : Guess) (path : String) (cfg : Config) :
    (∀ target conf, (process_subtitle_file fs G path cfg).1 = .ok (.Placed target conf) →
      ∃ title season episode showDir epName,
        (detect_tv_episode_info G path).1 = .ok (some (title, season, episode)) ∧
        (find_show_directory fs cfg title season).1 = .ok (some showDir) ∧
        find_episode_file fs G (joinPath showDir (formatSeason cfg.SeasonFormat season))
            title season episode = .ok (epName, conf) ∧
        target = joinPath (joinPath showDir (formatSeason cfg.SeasonFormat season))
            ((splitext epName).1 ++ (splitext path).2))
    ∧ (∀ sd title season episode entries,
        fs.listdir sd = .ok entries →
        (∀ f ∈ entries, entryCheck G f season episode = .ok false) →
        find_episode_file fs G sd title season episode =
          .ok (fallbackName title season episode, "fallback")) := by
  constructor
  · intro target conf h
    obtain ⟨title, season, episode, showDir, epName, fs2, h1, h2, h3, h4, -⟩ :=
      process_placed_cases fs G path cfg target conf h
    exact ⟨title, season, episode, showDir, epName, h1, h2, h3, h4⟩
  · intro sd title season episode entries hl hno
    have hloop := findEpisodeLoop_none G season episode entries hno
    unfold find_episode_file
    rw [hl]
    simp only [hloop]

/-- Witness for C5: the exact-match run at `fsHappy` and the fallback name
for season 3 episode 7 of "Show" in an empty season directory. -/
theorem c5_naming_witness :
    (∃ title season episode showDir epName,
      (detect_tv_episode_info gHappy "/src/show.s02e05.srt").1
          = .ok (some (title, season, episode)) ∧
      (find_show_directory fsHappy cfgHappy title season).1 = .ok (some showDir) ∧
      find_episode_file fsHappy gHappy (joinPath showDir (formatSeason cfgHappy.SeasonFormat season))
          title season episode = .ok (epName, "exact") ∧
      "/tv/Show (2019)/Season 2/Show - S02E05.srt" =
        joinPath (joinPath showDir (formatSeason cfgHappy.SeasonFormat season))
          ((splitext epName).1 ++ (splitext "/src/show.s02e05.srt").2)) ∧
    find_episode_file fsNoEp gHappy "/tv/Show (2019)/Season 3" "Show" 3 7
        = .ok (fallbackName "Show" 3 7, "fallback") ∧
    fallbackName "Show" 3 7 = "Show - S03E07.mkv" :=
  ⟨(c5_naming fsHappy gHappy "/src/show.s02e05.srt" cfgHappy).1
      "/tv/Show (2019)/Season 2/Show - S02E05.srt" "exact" (by decide),
   (c5_naming fsNoEp gHappy "/src/show.s03e07.srt" cfgHappy).2
      "/tv/Show (2019)/Season 3" "Show" 3 7 [] (by decide)
      (fun f hf => absurd hf (List.not_mem_nil f)),
   by decide⟩

/-- C10: a successful placement writes the source's content at the target
path unconditionally — whatever file was there before is silently
replaced, with no existence check and no warning (every log line of such a
run is informational). -/
theorem c10_silent_overwrite (fs : FS) (G : Guess) (path : String) (cfg : Config)
    (target conf : String) (hne : target ≠ path)
    (h : (process_subtitle_file fs G path cfg).1 = .ok (.Placed target conf)) :
    lookupA (process_subtitle_file fs G path cfg).2.1.files target = lookupA fs.files path ∧
    (∀ e ∈ (process_subtitle_file fs G path cfg).2.2, e.level = Level.info) := by
  obtain ⟨-, -, -, -, -, fs2, -, -, -, -, h5, h6, h7⟩ :=
    process_placed_cases fs G path cfg target conf h
  obtain ⟨content, hcontent, rfl⟩ := copy_ok h5
  obtain ⟨c2, -, hfs'⟩ := unlink_ok h6
  refine ⟨?_, h7⟩
  rw [hfs']
  dsimp only
  rw [lookupA_removeA_ne _ target path hne]
  rw [lookupA_setA_self]
  exact hcontent.symm

/-- Witness for C10: the target already held "old subs" and after the run
it holds the source's content. -/
theorem c10_silent_overwrite_witness :
    lookupA fsOver.files "/tv/Show (2019)/Season 2/Show - S02E05.srt" = some "old subs" ∧
    lookupA (process_subtitle_file fsOver gHappy "/src/show.s02e05.srt" cfgHappy).2.1.files
        "/tv/Show (2019)/Season 2/Show - S02E05.srt"
      = lookupA fsOver.files "/src/show.s02e05.srt" ∧
    lookupA fsOver.files "/src/show.s02e05.srt" = some "new subs" :=
  ⟨by decide,
   (c10_silent_overwrite fsOver gHappy "/src/show.s02e05.srt" cfgHappy
      "/tv/Show (2019)/Season 2/Show - S02E05.srt" "exact" (by decide) (by decide)).1,
   by decide⟩

/-- C6: once an event for a path has produced a placement (which deleted
the source), any later event for the same path is a silent no-op — the
handler observes that the path no longer exists and returns with no
outcome, no log line, and no filesystem change. -/
theorem c6_second_event_noop (fs : FS) (G : Guess) (cfg : Config) (et et2 p t c : String)
    (hdir : fs.dirs.contains p = false)
    (h : (SubtitleFileEventHandler.process fs G cfg et p).1 = .ok (some (.Placed t c))) :
    SubtitleFileEventHandler.process
        ((SubtitleFileEventHandler.process fs G cfg et p).2.1) G cfg et2 p
      = (.ok none, (SubtitleFileEventHandler.process fs G cfg et p).2.1, []) := by
  obtain ⟨hp, hfs1⟩ := handler_placed fs G cfg et p t c h
  obtain ⟨-, -, -, -, -, fs2, -, -, -, -, h5, h6, -⟩ :=
    process_placed_cases fs G p cfg t c hp
  obtain ⟨content, -, rfl⟩ := copy_ok h5
  obtain ⟨c2, -, hfs'⟩ := unlink_ok h6
  rw [hfs1, hfs']
  unfold SubtitleFileEventHandler.process
  by_cases h1 : (et2 != "modified" && et2 != "created") = true
  · rw [if_pos h1]
  · rw [if_neg h1]
    have hex : FS.pexists
        { { fs with files := setA fs.files t content } with
          files := removeA (setA fs.files t content) p } p = false := by
      unfold FS.pexists
      dsimp only
      rw [lookupA_removeA, hdir]
      rfl
    rw [if_pos (by rw [hex]; rfl)]

/-- Witness for C6: at the happy world, a second event for the consumed
path is the silent no-op. -/
theorem c6_second_event_noop_witness :
    SubtitleFileEventHandler.process
        ((SubtitleFileEventHandler.process fsHappy gHappy cfgHappy "created"
            "/src/show.s02e05.srt").2.1)
        gHappy cfgHappy "modified" "/src/show.s02e05.srt"
      = (.ok none,
         (SubtitleFileEventHandler.process fsHappy gHappy cfgHappy "created"
            "/src/show.s02e05.srt").2.1,
         []) :=
  c6_second_event_noop fsHappy gHappy cfgHappy "created" "modified" "/src/show.s02e05.srt"
    "/tv/Show (2019)/Season 2/Show - S02E05.srt" "exact" (by decide) (by decide)

/-- C3 counterexample: on the malformed match the program raises
`KeyError` out of `process_subtitle_file` instead of returning the
not-episode skip. -/
theorem c3_counterexample :
    (process_subtitle_file fsHappy gMalformed "/src/show.s02e05.srt" cfgHappy).1
        = .error .keyError ∧
    (process_subtitle_file fsHappy gMalformed "/src/show.s02e05.srt" cfgHappy).1
        ≠ .ok .NotEpisode := ⟨by decide, by decide⟩

/-- C3 amended: a match whose type is not "episode" yields the not-episode
skip with the filesystem untouched; but a match that claims type "episode"
while lacking the title field makes the title read raise `KeyError`, which
propagates out of `process_subtitle_file` — the run crashes instead of
skipping (the filesystem is still untouched). -/
theorem c3_malformed_raises (fs : FS) (G : Guess) (path : String) (cfg : Config) :
    (∀ t, (G path).gtype = some t → t ≠ "episode" →
      (process_subtitle_file fs G path cfg).1 = .ok .NotEpisode ∧
      (process_subtitle_file fs G path cfg).2.1 = fs)
    ∧ ((G path).gtype = some "episode" → (G path).gtitle = none →
      (process_subtitle_file fs G path cfg).1 = .error .keyError ∧
      (process_subtitle_file fs G path cfg).2.1 = fs) := by
  constructor
  · intro t hty hne
    have hd : detect_tv_episode_info G path = (.ok none,
        [⟨Level.info, s!"Got subtitle file {path}"⟩] ++
        [⟨Level.warning, s!"Tv show not detected. Skipping file {path}"⟩]) := by
      unfold detect_tv_episode_info
      dsimp only
      rw [hty]
      dsimp only
      rw [if_pos (by rw [bne_iff_ne]; exact hne)]
    exact ⟨by simp only [process_subtitle_file, hd],
           by simp only [process_subtitle_file, hd]⟩
  · intro hty hti
    have hd : detect_tv_episode_info G path = (.error .keyError,
        [⟨Level.info, s!"Got subtitle file {path}"⟩]) := by
      unfold detect_tv_episode_info
      dsimp only
      rw [hty]
      dsimp only
      rw [if_neg (by simp)]
      rw [hti]
    exact ⟨by simp only [process_subtitle_file, hd],
           by simp only [process_subtitle_file, hd]⟩

/-- Witness for the amended C3: a movie-classified path skips, the
malformed episode match raises. -/
theorem c3_malformed_raises_witness :
    ((process_subtitle_file fsHappy gHappy "/src/movie.srt" cfgHappy).1 = .ok .NotEpisode ∧
     (process_subtitle_file fsHappy gHappy "/src/movie.srt" cfgHappy).2.1 = fsHappy) ∧
    ((process_subtitle_file fsHappy gMalformed "/src/show.s02e05.srt" cfgHappy).1
        = .error .keyError ∧
     (process_subtitle_file fsHappy gMalformed "/src/show.s02e05.srt" cfgHappy).2.1 = fsHappy) :=
  ⟨(c3_malformed_raises fsHappy gHappy "/src/movie.srt" cfgHappy).1 "movie" (by decide)
      (by decide),
   (c3_malformed_raises fsHappy gMalformed "/src/show.s02e05.srt" cfgHappy).2 (by decide)
      (by decide)⟩

/-- C4 counterexample: with every `TVDirs` entry failing the existence
check, `load_config` still succeeds — with an empty library list — and
startup proceeds instead of failing. -/
theorem c4_counterexample :
    (load_config fsC4 rawC4).1
        = .ok (Config.mk "/inbox" [] defaultSeasonFormat "") ∧
    (main_startup fsC4 rawC4).1 = .ok true := ⟨by decide, by decide⟩

/-- C4 amended: each nonexistent `TVDirs` entry is dropped with an error
log, but when all are dropped the load still returns a configuration whose
library list is empty, and startup proceeds whenever `SourceDir` exists
and is a directory — the system does not refuse to start. -/
theorem c4_empty_library_starts (fs : FS) (raw : RawConfig) (src tvRaw : String)
    (hdef : raw.hasDefault = true) (hsrc : raw.SourceDir = some src) (hsrcne : src ≠ "")
    (htv : raw.TVDirs = some tvRaw) (htvne : tvRaw ≠ "")
    (hall : ∀ d ∈ splitComma tvRaw, fs.pexists d = false)
    (hex : fs.pexists src = true) (hdir : fs.isdir src = true) :
    load_config fs raw
        = (.ok (Config.mk src [] (raw.SeasonFormat.getD defaultSeasonFormat)
            (raw.LogFile.getD "")),
           (splitComma tvRaw).map (fun d =>
             ⟨Level.error, s!"TV Dir {d} does not exist. Ignoring"⟩)) ∧
    (main_startup fs raw).1 = .ok true := by
  have hfil : (splitComma tvRaw).filter (fun d => fs.pexists d) = [] := by
    rw [List.filter_eq_nil_iff]
    intro a ha
    rw [hall a ha]
    exact Bool.false_ne_true
  have hfil2 : (splitComma tvRaw).filter (fun d => !(fs.pexists d)) = splitComma tvRaw := by
    rw [List.filter_eq_self]
    intro a ha
    rw [hall a ha]
    rfl
  have hload : load_config fs raw
      = (.ok (Config.mk src [] (raw.SeasonFormat.getD defaultSeasonFormat)
          (raw.LogFile.getD "")),
         (splitComma tvRaw).map (fun d =>
           ⟨Level.error, s!"TV Dir {d} does not exist. Ignoring"⟩)) := by
    have h1 : ¬((src == "") = true) := by simp only [beq_iff_eq]; exact hsrcne
    have h2 : ¬((tvRaw == "") = true) := by simp only [beq_iff_eq]; exact htvne
    unfold load_config
    rw [hdef, hsrc, htv]
    dsimp only
    rw [if_neg (show ¬((!true) = true) by decide), if_neg h1, if_neg h2, hfil, hfil2]
  refine ⟨hload, ?_⟩
  unfold main_startup
  rw [hload]
  dsimp only
  rw [hex, hdir]
  rfl

/-- Witness for the amended C4 at the concrete scenario. -/
theorem c4_empty_library_starts_witness :
    load_config fsC4 rawC4
        = (.ok (Config.mk "/inbox" [] defaultSeasonFormat ""),
           [⟨Level.error, "TV Dir /lib1 does not exist. Ignoring"⟩]) ∧
    (main_startup fsC4 rawC4).1 = .ok true := by
  have h := c4_empty_library_starts fsC4 rawC4 "/inbox" "/lib1" (by decide) (by decide)
    (by decide) (by decide) (by decide) (by decide) (by decide) (by decide)
  exact ⟨by rw [h.1]; rfl, h.2⟩

/-- C7 counterexample: with the first root's listing failing and the
second root holding the unique match, the lookup does not complete over
the remaining roots — it aborts with the exception and logs nothing. -/
theorem c7_counterexample :
    find_show_directory fsTwoRoots cfgTwoRoots "Show" 1 = (.error .osError, []) := by decide

/-- C7 amended: non-directory entries under a root are ignored, but a
directory-listing error on any library root is not caught — the whole
lookup aborts with that exception, with no log and no per-root skip. -/
theorem c7_listing_error_aborts (fs : FS) (cfg : Config) (title : String) (season : Nat) :
    ((∃ root ∈ cfg.TVDirs, ∃ e, fs.listdir root = .error e) →
      ∃ e2, find_show_directory fs cfg title season = (.error e2, []))
    ∧ (∀ tv_dir sub subs, fs.isdir (joinPath tv_dir sub) = false →
        matchesInRoot fs title tv_dir (sub :: subs) = matchesInRoot fs title tv_dir subs) := by
  constructor
  · intro hex
    obtain ⟨e2, h2⟩ := collectMatches_err fs title cfg.TVDirs hex
    exact ⟨e2, by unfold find_show_directory; rw [h2]⟩
  · intro tv_dir sub subs hnd
    conv_lhs => rw [matchesInRoot]
    rw [if_neg (by rw [hnd]; simp)]

/-- Witness for the amended C7 at the two-root scenario, plus a
non-directory entry being skipped at the happy world. -/
theorem c7_listing_error_aborts_witness :
    (∃ e2, find_show_directory fsTwoRoots cfgTwoRoots "Show" 1 = (.error e2, [])) ∧
    matchesInRoot fsHappy "Show" "/tv" ["notes.txt"] = matchesInRoot fsHappy "Show" "/tv" [] :=
  ⟨(c7_listing_error_aborts fsTwoRoots cfgTwoRoots "Show" 1).1
      ⟨"/r1", by decide, .osError, by decide⟩,
   (c7_listing_error_aborts fsHappy cfgHappy "Show" 1).2 "/tv" "notes.txt" [] (by decide)⟩
